import Mathlib

/-!
Shallow embedding of the completion-orchestration core of the repository
(`services/openai_service.py`, `services/tools.py`, `services/pinecone_service.py`,
`services/prompts.py`, `models.py`), together with theorems settling the frozen
claims about it.

Modelling conventions:
* `datetime.utcnow()` / `datetime.now()` are abstracted as a monotonically
  increasing logical clock (`Nat`); each wall-clock read consumes one tick and
  `isoformat()` / `strftime` render the tick.
* `uuid.uuid4()` is abstracted as a counter-indexed fresh identifier (`genId`).
* Python dict-typed payloads (tool results, JSON) are represented by inductive
  types whose constructors carry exactly the keys the code writes; the textual
  JSON rendering (`json.dumps`) is abstracted by a structural serializer.
* Python object aliasing of `Message` instances is modelled by a heap of
  numbered references: a history is a `List Nat` of references into the heap,
  so `list.copy()` copies references while in-place field assignment updates
  the heap, exactly as in CPython.
* The OpenAI and Pinecone network clients are parameters: a model call is an
  oracle response (`ModelResponse`), an embedding / vector query is an outcome
  value that is either a result or a raised exception.
-/

set_option maxHeartbeats 1000000
set_option maxRecDepth 40000

namespace Gym

/-- Python's `sep.join(parts)` on a list of strings. -/
def joinSep (sep : String) : List String → String
  | [] => ""
  | [x] => x
  | x :: xs => x ++ sep ++ joinSep sep xs

/-- Sum of the lengths of a list of strings. -/
def sumLen (l : List String) : Nat := (l.map String.length).sum

/-! ## services/tools.py — booking store and tools -/

/-- Booking record stored in `ToolExecutor.bookings_db` (timestamps are logical
clock ticks, see the module conventions). -/
structure Booking where
  booking_id : String
  service_type : String
  date : String
  time : String
  duration_minutes : Int
  customer_name : String
  customer_email : String
  notes : String
  status : String
  created_at : Nat
  updated_at : Nat
deriving DecidableEq

/-- Result dict returned by a tool, one constructor per key shape the code
produces: successful create / update / single get / filtered get, and the two
error-dict shapes (`success: False` plus `error`, and bare `error`). -/
inductive ToolResult where
  | createOk (booking_id : String) (message : String) (booking : Booking)
  | updateOk (booking_id : String) (message : String) (booking : Booking)
  | getOne (booking : Booking)
  | getMany (count : Nat) (bookings : List Booking)
  | notFound (error : String)
  | toolError (error : String)
deriving DecidableEq

/-- Mutable class-level state of `ToolExecutor`: the insertion-ordered
`bookings_db` dict plus the abstracted uuid counter and logical clock. -/
structure ToolExecutor where
  bookings : List (String × Booking)
  nextId : Nat
  clock : Nat
deriving DecidableEq

/-- Abstraction of `str(uuid.uuid4())`: the `n`-th fresh identifier. -/
def genId (n : Nat) : String := "uuid-" ++ toString n

/-- Abstraction of `(datetime.now() + timedelta(days=2)).strftime("%Y-%m-%d")`:
renders the logical clock two days ahead. -/
def sampleDate (clock : Nat) : String := toString (clock + 2)

/-- Python dict assignment `d[k] = v`: replace in place if the key exists,
otherwise append at the end (dicts preserve insertion order). -/
def dictInsert (bs : List (String × Booking)) (k : String) (b : Booking) :
    List (String × Booking) :=
  if bs.any (fun p => p.1 == k) then
    bs.map (fun p => if p.1 == k then (k, b) else p)
  else bs ++ [(k, b)]

/-- In-place mutation of the dict entry at key `k` (the Python code mutates the
`booking` dict object stored in `bookings_db`). -/
def storeSet (bs : List (String × Booking)) (k : String) (b : Booking) :
    List (String × Booking) :=
  bs.map (fun p => if p.1 == k then (p.1, b) else p)

/-- The fresh state of the store: `bookings_db = {}` at class creation. -/
def initState : ToolExecutor := { bookings := [], nextId := 0, clock := 0 }

/-- Embedding of `ToolExecutor.create_booking`: builds the booking dict
(two `utcnow()` reads, for `created_at` and `updated_at`), inserts it under a
fresh uuid, and returns the success dict. -/
def ToolExecutor.create_booking (s : ToolExecutor)
    (service_type date time customer_name customer_email : String)
    (duration_minutes : Int) (notes : String) : ToolResult × ToolExecutor :=
  let booking_id := genId s.nextId
  let booking : Booking :=
    { booking_id := booking_id
      service_type := service_type
      date := date
      time := time
      duration_minutes := duration_minutes
      customer_name := customer_name
      customer_email := customer_email
      notes := notes
      status := "confirmed"
      created_at := s.clock
      updated_at := s.clock + 1 }
  let s1 : ToolExecutor :=
    { bookings := dictInsert s.bookings booking_id booking
      nextId := s.nextId + 1
      clock := s.clock + 2 }
  (.createOk booking_id
    ("Booking created successfully for " ++ customer_name ++ " on " ++ date ++
      " at " ++ time) booking, s1)

/-- Embedding of `ToolExecutor.update_booking`: unknown id returns the
`success: False` dict without touching the store; otherwise the supplied
(non-`None`) fields among date, time, duration_minutes, status, notes are
written into the stored dict in that order, then `updated_at` is stamped. -/
def ToolExecutor.update_booking (s : ToolExecutor) (booking_id : String)
    (date time : Option String) (duration_minutes : Option Int)
    (status notes : Option String) : ToolResult × ToolExecutor :=
  match s.bookings.lookup booking_id with
  | none => (.notFound ("Booking " ++ booking_id ++ " not found"), s)
  | some booking =>
    let b1 := match date with | some v => { booking with date := v } | none => booking
    let b2 := match time with | some v => { b1 with time := v } | none => b1
    let b3 := match duration_minutes with
      | some v => { b2 with duration_minutes := v } | none => b2
    let b4 := match status with | some v => { b3 with status := v } | none => b3
    let b5 := match notes with | some v => { b4 with notes := v } | none => b4
    let updated_fields :=
      (if date.isSome then ["date"] else []) ++
      (if time.isSome then ["time"] else []) ++
      (if duration_minutes.isSome then ["duration_minutes"] else []) ++
      (if status.isSome then ["status"] else []) ++
      (if notes.isSome then ["notes"] else [])
    let b6 := { b5 with updated_at := s.clock }
    (.updateOk booking_id
        ("Booking updated successfully. Updated fields: " ++
          joinSep ", " updated_fields) b6,
      { s with bookings := storeSet s.bookings booking_id b6, clock := s.clock + 1 })

/-- Python truthiness of an `Optional[str]`: `None` and `""` are falsy. -/
def truthy : Option String → Bool
  | none => false
  | some s => s != ""

/-- The match flag of the filter loop in `get_booking`, falsified in turn by
the customer_email, date and status conditions exactly as in the source. -/
def bookingMatches (customer_email date : Option String) (status : String)
    (b : Booking) : Bool :=
  let m0 := true
  let m1 := if truthy customer_email && b.customer_email != customer_email.getD ""
    then false else m0
  let m2 := if truthy date && b.date != date.getD "" then false else m1
  let m3 := if status != "all" && b.status != status then false else m2
  m3

/-- Embedding of `ToolExecutor.get_booking`: a truthy booking_id selects the
single-booking path; otherwise the store is filtered by the match flag, and —
faithfully to the source — when both the filtered list and the whole store are
empty a sample demo booking is created before returning. -/
def ToolExecutor.get_booking (s : ToolExecutor)
    (booking_id customer_email date : Option String) (status : String) :
    ToolResult × ToolExecutor :=
  if truthy booking_id then
    match s.bookings.lookup (booking_id.getD "") with
    | some b => (.getOne b, s)
    | none => (.notFound ("Booking " ++ booking_id.getD "" ++ " not found"), s)
  else
    let filtered_bookings :=
      (s.bookings.map Prod.snd).filter (bookingMatches customer_email date status)
    if filtered_bookings.isEmpty && s.bookings.isEmpty then
      let s1 := (s.create_booking "personal_training" (sampleDate s.clock) "10:00"
        "John Doe" "john@example.com" 60 "First session").2
      let filtered2 := s1.bookings.map Prod.snd
      (.getMany filtered2.length filtered2, s1)
    else
      (.getMany filtered_bookings.length filtered_bookings, s)

/-- Arguments dict of a tool call after `json.loads`, one constructor per tool
with `Option` for keys the model may omit, plus a shape-mismatch case standing
for argument dicts that do not fit the callee's signature. -/
inductive ToolArgs where
  | createArgs (service_type date time customer_name customer_email : String)
      (duration_minutes : Option Int) (notes : Option String)
  | updateArgs (booking_id : String) (date time : Option String)
      (duration_minutes : Option Int) (status notes : Option String)
  | getArgs (booking_id customer_email date status : Option String)
  | badArgs (description : String)
deriving DecidableEq

/-- Embedding of `ToolExecutor.execute_tool`: dispatch by name over the tool
map, unknown names give the bare error dict, and a `TypeError` from a
mismatched argument shape is caught and converted to an error dict. -/
def ToolExecutor.execute_tool (s : ToolExecutor) (tool_name : String)
    (arguments : ToolArgs) : ToolResult × ToolExecutor :=
  if tool_name != "create_booking" && tool_name != "update_booking" &&
      tool_name != "get_booking" then
    (.toolError ("Unknown tool: " ++ tool_name), s)
  else
    match tool_name, arguments with
    | "create_booking", .createArgs st d t cn ce dm no =>
        s.create_booking st d t cn ce (dm.getD 60) (no.getD "")
    | "update_booking", .updateArgs bid d t dm stt no =>
        s.update_booking bid d t dm stt no
    | "get_booking", .getArgs bid ce d stt =>
        s.get_booking bid ce d (stt.getD "all")
    | _, _ => (.toolError "Tool execution failed: unexpected arguments", s)

/-- Structural stand-in for `json.dumps` on a booking dict. -/
def Booking.render (b : Booking) : String :=
  "(booking_id " ++ b.booking_id ++ ", service_type " ++ b.service_type ++
    ", date " ++ b.date ++ ", time " ++ b.time ++ ", duration_minutes " ++
    toString b.duration_minutes ++ ", customer_name " ++ b.customer_name ++
    ", customer_email " ++ b.customer_email ++ ", notes " ++ b.notes ++
    ", status " ++ b.status ++ ", created_at " ++ toString b.created_at ++
    ", updated_at " ++ toString b.updated_at ++ ")"

/-- Structural stand-in for `json.dumps` on a tool-result dict. -/
def ToolResult.render : ToolResult → String
  | .createOk id m b =>
      "(success true, booking_id " ++ id ++ ", message " ++ m ++ ", booking " ++
        b.render ++ ")"
  | .updateOk id m b =>
      "(success true, booking_id " ++ id ++ ", message " ++ m ++ ", booking " ++
        b.render ++ ")"
  | .getOne b => "(success true, booking " ++ b.render ++ ")"
  | .getMany c bs =>
      "(success true, count " ++ toString c ++ ", bookings " ++
        joinSep ", " (bs.map Booking.render) ++ ")"
  | .notFound e => "(success false, error " ++ e ++ ")"
  | .toolError e => "(error " ++ e ++ ")"

/-- One bullet line of the multi-booking rendering in `format_tool_response`. -/
def bookingLine (b : Booking) : String :=
  "\n• " ++ b.customer_name ++ " - " ++ b.service_type ++ " on " ++ b.date ++
    " at " ++ b.time ++ " (Status: " ++ b.status ++ ")"

/-- Embedding of `format_tool_response`: the `error`-key check comes first,
then the per-tool success renderings, then the generic json fallback. -/
def format_tool_response (tool_name : String) (result : ToolResult) : String :=
  match result with
  | .notFound e => "[Tool Error: " ++ e ++ "]"
  | .toolError e => "[Tool Error: " ++ e ++ "]"
  | r =>
    if tool_name == "create_booking" then
      match r with
      | .createOk _ _ b =>
          "[Booking Created Successfully]\nBooking ID: " ++ b.booking_id ++
            "\nCustomer: " ++ b.customer_name ++ "\nService: " ++
            b.service_type ++ "\nDate/Time: " ++ b.date ++ " at " ++ b.time ++
            "\nDuration: " ++ toString b.duration_minutes ++ " minutes"
      | r2 => "[Tool Result: " ++ r2.render ++ "]"
    else if tool_name == "update_booking" then
      match r with
      | .updateOk _ m _ => "[Booking Updated Successfully]\n" ++ m
      | r2 => "[Tool Result: " ++ r2.render ++ "]"
    else if tool_name == "get_booking" then
      match r with
      | .getOne b =>
          "[Booking Found]\nBooking ID: " ++ b.booking_id ++ "\nCustomer: " ++
            b.customer_name ++ "\nService: " ++ b.service_type ++
            "\nDate/Time: " ++ b.date ++ " at " ++ b.time ++ "\nStatus: " ++
            b.status
      | .getMany c bs =>
          if c == 0 then "[No bookings found matching the criteria]"
          else "[Found " ++ toString c ++ " booking(s)]\n" ++
            String.join (bs.map bookingLine)
      | r2 => "[Tool Result: " ++ r2.render ++ "]"
    else "[Tool Result: " ++ r.render ++ "]"

/-! ## services/pinecone_service.py — retrieval gateway -/

/-- Retrieved chunk as formatted by `search_knowledge_base` (similarity scores
are only carried, never computed with, so they are abstracted as `Int`). -/
structure RDoc where
  id : String
  score : Int
  text : String
  title : String
  source : String
deriving DecidableEq

/-- Outcome of the OpenAI embeddings call: a vector, or a raised exception. -/
inductive EmbedOutcome where
  | ok (v : List Int)
  | failure (msg : String)
deriving DecidableEq

/-- Outcome of the Pinecone `index.query` call: ranked matches (already
formatted into doc dicts, with the `metadata.get` defaults applied at the
boundary), or a raised exception. -/
inductive QueryOutcome where
  | ok (found : List RDoc)
  | failure (msg : String)
deriving DecidableEq

/-- Embedding of `PineconeService.generate_embedding`: an exception is caught
and turned into the empty list. -/
def generate_embedding : EmbedOutcome → List Int
  | .ok v => v
  | .failure _ => []

/-- Embedding of `PineconeService.search_knowledge_base`: no index handle, a
failed or empty query embedding, or a raised query exception all yield the
empty list; otherwise the formatted matches are returned. -/
def search_knowledge_base (indexOk : Bool) (emb : EmbedOutcome)
    (q : QueryOutcome) : List RDoc :=
  if !indexOk then []
  else
    let query_embedding := generate_embedding emb
    if query_embedding.isEmpty then []
    else
      match q with
      | .failure _ => []
      | .ok found => found

/-- Per-document formatting inside `get_context_for_prompt`:
`"[title]\ntext"` when the title is truthy, else the bare text. -/
def fmtDoc (d : RDoc) : String :=
  if d.title != "" then "[" ++ d.title ++ "]\n" ++ d.text else d.text

/-- The accumulation loop of `get_context_for_prompt`: keeps whole formatted
documents while the running total stays within `max_context_length`, and
`break`s at the first document that would exceed it. -/
def accumulate (max_context_length : Nat) : Nat → List RDoc → List String
  | _, [] => []
  | total, d :: rest =>
    let doc_text := fmtDoc d
    if total + doc_text.length > max_context_length then []
    else doc_text :: accumulate max_context_length (total + doc_text.length) rest

/-- Embedding of `PineconeService.get_context_for_prompt` (default
`max_context_length` is 2000): empty retrieval gives the empty string,
otherwise the accumulated parts are prefixed with the header and joined. -/
def get_context_for_prompt (indexOk : Bool) (emb : EmbedOutcome)
    (q : QueryOutcome) (max_context_length : Nat) : String :=
  let documents := search_knowledge_base indexOk emb q
  if documents.isEmpty then ""
  else
    let context_parts := accumulate max_context_length 0 documents
    if !context_parts.isEmpty then
      "### Relevant Business Information:\n" ++ joinSep "\n\n" context_parts
    else ""

/-! ## models.py and services/prompts.py -/

/-- Stored `Message` fields the orchestrator reads (id and created_at never
influence the control flow and are carried by the heap reference instead). -/
structure Message where
  role : String
  content : String
deriving DecidableEq

/-- Heap of message objects: a history is a list of references into it, so
that Python's aliasing of `Message` instances is represented faithfully. -/
abbrev Heap := List (Nat × Message)

/-- Dereference a message object (a dangling reference, which cannot arise
from well-formed inputs, yields a dummy empty message). -/
def heapGet (h : Heap) (r : Nat) : Message := (h.lookup r).getD { role := "", content := "" }

/-- In-place assignment `obj.content = ...` on the object at reference `r`. -/
def heapSet (h : Heap) (r : Nat) (m : Message) : Heap :=
  h.map (fun p => if p.1 == r then (p.1, m) else p)

/-- The `SYSTEM_PROMPT` text of services/prompts.py. -/
def SYSTEM_PROMPT : String :=
  "You are a helpful booking assistant for a fitness and wellness center. \nYour primary role is to help users:\n1. Create new bookings for services (gym sessions, personal training, massage, consultations)\n2. Check existing bookings\n3. Update or cancel bookings\n4. Answer questions about services and availability\n\nYou have access to booking tools that you can use when users request booking-related actions:\n- create_booking: To make new appointments\n- get_booking: To check existing bookings\n- update_booking: To modify or cancel bookings\n\nBe friendly, professional, and proactive in helping users manage their bookings.\nWhen users ask about bookings, automatically use the appropriate tools to help them.\nAlways confirm important details like dates, times, and customer information.\n\nIf a user asks something unrelated to bookings, politely redirect them or provide brief help while suggesting they focus on booking-related queries."

/-- The `MINIMAL_PROMPT` text of services/prompts.py. -/
def MINIMAL_PROMPT : String :=
  "You are a helpful assistant with access to booking management tools. \nUse these tools when users need to create, view, or modify bookings."

/-- The `DETAILED_PROMPT` text of services/prompts.py (content elided to its
first line; no claim depends on this variant, which the core never selects). -/
def DETAILED_PROMPT : String :=
  "You are an AI booking concierge for a premium fitness and wellness center."

/-- Embedding of `get_system_prompt`: dictionary lookup with `SYSTEM_PROMPT`
as the fallback. -/
def get_system_prompt (prompt_type : String) : String :=
  if prompt_type == "default" then SYSTEM_PROMPT
  else if prompt_type == "minimal" then MINIMAL_PROMPT
  else if prompt_type == "detailed" then DETAILED_PROMPT
  else SYSTEM_PROMPT

/-! ## services/openai_service.py — completion orchestrator -/

/-- Serialized tool-call entry inside the round-2 assistant message
(`id`, `type: function`, function name and `json.dumps` of the arguments). -/
structure ToolCallMsg where
  id : String
  name : String
  arguments : String
deriving DecidableEq

/-- Outbound message as assembled for the OpenAI API: plain role/content
dicts, the assistant dict carrying tool calls, and tool-result dicts. -/
inductive FMessage where
  | chat (role : String) (content : String)
  | assistantCalls (content : String) (tool_calls : List ToolCallMsg)
  | toolResult (content : String) (tool_call_id : String)
deriving DecidableEq

/-- Role of an outbound message dict. -/
def FMessage.role : FMessage → String
  | .chat r _ => r
  | .assistantCalls _ _ => "assistant"
  | .toolResult _ _ => "tool"

/-- Structural stand-in for `json.dumps(tc["arguments"])`. -/
def ToolArgs.render : ToolArgs → String
  | .createArgs st d t cn ce dm no =>
      "(service_type " ++ st ++ ", date " ++ d ++ ", time " ++ t ++
        ", customer_name " ++ cn ++ ", customer_email " ++ ce ++
        ", duration_minutes " ++ toString (dm.getD 60) ++ ", notes " ++
        no.getD "" ++ ")"
  | .updateArgs bid d t dm stt no =>
      "(booking_id " ++ bid ++ ", date " ++ toString d ++ ", time " ++
        toString t ++ ", duration_minutes " ++ toString dm ++ ", status " ++
        toString stt ++ ", notes " ++ toString no ++ ")"
  | .getArgs bid ce d stt =>
      "(booking_id " ++ toString bid ++ ", customer_email " ++ toString ce ++
        ", date " ++ toString d ++ ", status " ++ toString stt ++ ")"
  | .badArgs descr => "(malformed " ++ descr ++ ")"

/-- Tool call parsed out of a model response (`id`, function name and the
`json.loads` of its arguments). -/
structure ToolCall where
  id : String
  name : String
  arguments : ToolArgs
deriving DecidableEq

/-- Raw response of one OpenAI chat-completion call: optional content and the
(possibly empty) list of requested tool calls. -/
structure ModelResponse where
  content : Option String
  tool_calls : List ToolCall
deriving DecidableEq

/-- External collaborators of one orchestration pass: the oracle responses of
model call #1 and model call #2, and the Pinecone singleton — `none` when
`get_pinecone_service()` returns `None` (constructor raised), otherwise the
`get_context_for_prompt` function it provides. -/
structure Env where
  llm1 : ModelResponse
  llm2 : ModelResponse
  pinecone : Option (String → String)

/-- Message-list assembly of `OpenAIService.get_completion`: prepend the
default system prompt unless disabled or the history already starts with a
system message, then the role/content pairs of the history. -/
def formatForModel (h : Heap) (messages : List Nat)
    (include_system_prompt : Bool) : List FMessage :=
  let noLeadingSystem :=
    match messages with
    | [] => true
    | r :: _ => (heapGet h r).role != "system"
  (if include_system_prompt && noLeadingSystem then
    [FMessage.chat "system" (get_system_prompt "default")] else []) ++
  messages.map (fun r => FMessage.chat (heapGet h r).role (heapGet h r).content)

/-- Result of a tool-execution loop: the updated store, the values produced
per call, and the `(name, arguments)` of every `execute_tool` invocation. -/
structure LoopOut (α : Type) where
  state : ToolExecutor
  items : List α
  exec : List (String × ToolArgs)
deriving DecidableEq

/-- First tool loop of `get_completion_with_tools`: execute each requested
call in emission order and keep one `format_tool_response` rendering each. -/
def runToolLoop (s : ToolExecutor) : List ToolCall → LoopOut String
  | [] => { state := s, items := [], exec := [] }
  | tc :: rest =>
    let r := s.execute_tool tc.name tc.arguments
    let out := runToolLoop r.2 rest
    { state := out.state
      items := format_tool_response tc.name r.1 :: out.items
      exec := (tc.name, tc.arguments) :: out.exec }

/-- Second tool loop of `get_completion_with_tools` (the `zip` over tool calls
and results): builds one tool-role message per call, with the serialized
result of a fresh `execute_tool` invocation as its content. -/
def runToolMsgLoop (s : ToolExecutor) : List ToolCall → LoopOut FMessage
  | [] => { state := s, items := [], exec := [] }
  | tc :: rest =>
    let r := s.execute_tool tc.name tc.arguments
    let out := runToolMsgLoop r.2 rest
    { state := out.state
      items := FMessage.toolResult (ToolResult.render r.1) tc.id :: out.items
      exec := (tc.name, tc.arguments) :: out.exec }

/-- The RAG-context computation at the top of `get_completion_with_tools`:
only when enabled, the history is non-empty and the service singleton exists,
query the gateway with the content of the last user-role message. -/
def ragContextOf (env : Env) (h : Heap) (messages : List Nat)
    (use_rag : Bool) : String :=
  if use_rag && !messages.isEmpty then
    match env.pinecone with
    | none => ""
    | some getContext =>
      let user_messages := messages.filter (fun r => (heapGet h r).role == "user")
      match user_messages.getLast? with
      | none => ""
      | some r => getContext (heapGet h r).content
  else ""

/-- The in-place RAG merge of `get_completion_with_tools`: on a non-empty
context, if the final message of the (shallow-copied) list is user-role, its
`content` field is reassigned on the shared heap object. -/
def augmentHeap (h : Heap) (messages : List Nat) (rag_context : String) : Heap :=
  if rag_context != "" then
    match messages.getLast? with
    | some r =>
      if (heapGet h r).role == "user" then
        heapSet h r { heapGet h r with
          content := rag_context ++ "\n\nUser Question: " ++ (heapGet h r).content }
      else h
    | none => h
  else h

/-- Post-tool-call message list of `get_completion_with_tools`: system prompt
(unconditionally), the history read back through the heap, the assistant
message carrying the serialized tool calls, then the tool-result messages. -/
def buildSecondMessages (h : Heap) (messages : List Nat) (content : String)
    (tcs : List ToolCall) (tool_msgs : List FMessage) : List FMessage :=
  [FMessage.chat "system" (get_system_prompt "default")] ++
  messages.map (fun r => FMessage.chat (heapGet h r).role (heapGet h r).content) ++
  [FMessage.assistantCalls content
    (tcs.map (fun tc => { id := tc.id, name := tc.name, arguments := tc.arguments.render }))] ++
  tool_msgs

/-- Observable behaviour of one orchestration pass: the message lists sent to
the model (with whether the tool catalog was attached), every `execute_tool`
invocation against the store in order, the provisional combined text, the
returned final answer, the final store, and the final message heap. -/
structure Trace where
  sent : List (List FMessage × Bool)
  executed : List (String × ToolArgs)
  provisional : Option String
  finalAnswer : Option String
  toolState : ToolExecutor
  heap : Heap

/-- Embedding of `OpenAIService.get_completion_with_tools`: RAG merge, model
call #1 with tools attached, early return without tool calls; otherwise the
two tool loops, the provisional combined text, and model call #2 without the
tool catalog whose content is returned as the final answer. -/
def get_completion_with_tools (env : Env) (h : Heap) (messages : List Nat)
    (use_rag : Bool) (s0 : ToolExecutor) : Trace :=
  let rag_context := ragContextOf env h messages use_rag
  let h1 := augmentHeap h messages rag_context
  let sent1 := formatForModel h1 messages true
  let resp1 := env.llm1
  if resp1.tool_calls.isEmpty then
    { sent := [(sent1, true)], executed := [], provisional := none,
      finalAnswer := resp1.content, toolState := s0, heap := h1 }
  else
    let content := resp1.content.getD ""
    let loop1 := runToolLoop s0 resp1.tool_calls
    let full_response :=
      (if content != "" then content ++ "\n\n" else "") ++
        joinSep "\n" loop1.items
    let loop2 := runToolMsgLoop loop1.state resp1.tool_calls
    let sent2 := buildSecondMessages h1 messages content resp1.tool_calls loop2.items
    { sent := [(sent1, true), (sent2, false)]
      executed := loop1.exec ++ loop2.exec
      provisional := some full_response
      finalAnswer := env.llm2.content
      toolState := loop2.state
      heap := h1 }

/-! ## Helper lemmas -/

/-- Lookup after replacing the value at every occurrence of a key. -/
theorem lookup_setAll {α β : Type} [BEq α] [LawfulBEq α] (l : List (α × β))
    (k : α) (b : β) :
    (l.map (fun p => if p.1 == k then (p.1, b) else p)).lookup k =
      (l.lookup k).map (fun _ => b) := by
  induction l with
  | nil => rfl
  | cons p t ih =>
    obtain ⟨a, v⟩ := p
    by_cases ha : a = k
    · subst ha
      simp [List.lookup_cons, ih]
    · have ha2 : (a == k) = false := beq_false_of_ne ha
      have ha3 : (k == a) = false := beq_false_of_ne (Ne.symm ha)
      simp [List.lookup_cons, ha2, ha3, ih]

/-- Lookup of a different key is unchanged by the replacement. -/
theorem lookup_setAll_ne {α β : Type} [BEq α] [LawfulBEq α] (l : List (α × β))
    (k k' : α) (b : β) (hk : k' ≠ k) :
    (l.map (fun p => if p.1 == k then (p.1, b) else p)).lookup k' = l.lookup k' := by
  induction l with
  | nil => rfl
  | cons p t ih =>
    obtain ⟨a, v⟩ := p
    by_cases hp : a = k
    · subst hp
      have hk3 : (k' == a) = false := beq_false_of_ne hk
      simp [List.lookup_cons, hk3, ih]
    · have hp2 : (a == k) = false := beq_false_of_ne hp
      by_cases hq : k' = a
      · subst hq
        simp [List.lookup_cons, hp2]
      · have hq2 : (k' == a) = false := beq_false_of_ne hq
        simp [List.lookup_cons, hp2, hq2, ih]

/-- Lookup at the mutated key of the booking store. -/
theorem lookup_storeSet_self (bs : List (String × Booking)) (k : String) (b : Booking) :
    (storeSet bs k b).lookup k = (bs.lookup k).map (fun _ => b) :=
  lookup_setAll bs k b

/-- Lookup at any other key of the booking store. -/
theorem lookup_storeSet_ne (bs : List (String × Booking)) (k k' : String)
    (b : Booking) (hk : k' ≠ k) :
    (storeSet bs k b).lookup k' = bs.lookup k' :=
  lookup_setAll_ne bs k k' b hk

/-- Lookup at the mutated reference of the message heap. -/
theorem lookup_heapSet_self (h : Heap) (r : Nat) (m : Message) :
    (heapSet h r m).lookup r = (h.lookup r).map (fun _ => m) :=
  lookup_setAll h r m

/-- Lookup at any other reference of the message heap. -/
theorem lookup_heapSet_ne (h : Heap) (r r' : Nat) (m : Message) (hr : r' ≠ r) :
    (heapSet h r m).lookup r' = h.lookup r' :=
  lookup_setAll_ne h r r' m hr

/-! ## C10 — create_booking is total and always succeeds -/

/-- C10: for every store state and every combination of string arguments (with
duration defaulting to 60 and notes to the empty string), `create_booking`
dispatched through `execute_tool` returns a success result with a freshly
generated bookingId and status "confirmed", inserts the booking into the
store (growing it by one when the generated id is fresh), and never returns an
error result — no validation of date, time, or email format is performed. -/
theorem create_booking_total (s : ToolExecutor) (st d t cn ce : String)
    (dm : Option Int) (no : Option String) :
    ∃ m b,
      (s.execute_tool "create_booking" (.createArgs st d t cn ce dm no)).1 =
        .createOk (genId s.nextId) m b ∧
      b.status = "confirmed" ∧
      b.duration_minutes = dm.getD 60 ∧ b.notes = no.getD "" ∧
      b.service_type = st ∧ b.date = d ∧ b.time = t ∧
      b.customer_name = cn ∧ b.customer_email = ce ∧
      (s.execute_tool "create_booking" (.createArgs st d t cn ce dm no)).2.bookings =
        dictInsert s.bookings (genId s.nextId) b ∧
      (s.bookings.any (fun p => p.1 == genId s.nextId) = false →
        (s.execute_tool "create_booking" (.createArgs st d t cn ce dm no)).2.bookings.length =
          s.bookings.length + 1) := by
  refine ⟨_,
    { booking_id := genId s.nextId
      service_type := st
      date := d
      time := t
      duration_minutes := dm.getD 60
      customer_name := cn
      customer_email := ce
      notes := no.getD ""
      status := "confirmed"
      created_at := s.clock
      updated_at := s.clock + 1 },
    rfl, rfl, rfl, rfl, rfl, rfl, rfl, rfl, rfl, rfl, ?_⟩
  intro hfresh
  show (dictInsert s.bookings (genId s.nextId) _).length = _
  simp [dictInsert, hfresh]

/-- Witness for C10 at a concrete input with a fresh id. -/
theorem create_booking_total_witness :
    ∃ m b,
      (initState.execute_tool "create_booking"
        (.createArgs "massage" "2024-06-01" "09:00" "Ann" "ann@x.com" none none)).1 =
        .createOk (genId initState.nextId) m b ∧
      b.status = "confirmed" ∧
      b.duration_minutes = 60 ∧ b.notes = "" ∧
      b.service_type = "massage" ∧ b.date = "2024-06-01" ∧ b.time = "09:00" ∧
      b.customer_name = "Ann" ∧ b.customer_email = "ann@x.com" ∧
      (initState.execute_tool "create_booking"
        (.createArgs "massage" "2024-06-01" "09:00" "Ann" "ann@x.com" none none)).2.bookings =
        dictInsert initState.bookings (genId initState.nextId) b ∧
      (initState.execute_tool "create_booking"
        (.createArgs "massage" "2024-06-01" "09:00" "Ann" "ann@x.com" none none)).2.bookings.length =
        initState.bookings.length + 1 := by
  obtain ⟨m, b, h1, h2, h3, h4, h5, h6, h7, h8, h9, h10, h11⟩ :=
    create_booking_total initState "massage" "2024-06-01" "09:00" "Ann" "ann@x.com" none none
  exact ⟨m, b, h1, h2, h3, h4, h5, h6, h7, h8, h9, h10, h11 (by decide)⟩

/-! ## C8 — update_booking frame conditions -/

/-- C8: `update_booking` on an unknown id returns a `success: false` error
dict and leaves the store completely unchanged; on a known id exactly the
supplied fields among date, time, duration_minutes, status, notes take the
supplied values, every other field keeps its prior value, other store entries
are untouched, and `updated_at` is stamped with the current clock, strictly
after the prior stamp whenever the prior stamp precedes the clock. -/
theorem update_booking_frame (s : ToolExecutor) (bid : String)
    (d t : Option String) (dm : Option Int) (st no : Option String) :
    (s.bookings.lookup bid = none →
      (s.update_booking bid d t dm st no).1 =
        .notFound ("Booking " ++ bid ++ " not found") ∧
      (s.update_booking bid d t dm st no).2 = s) ∧
    (∀ old, s.bookings.lookup bid = some old →
      ∃ m b2,
        (s.update_booking bid d t dm st no).1 = .updateOk bid m b2 ∧
        (s.update_booking bid d t dm st no).2.bookings.lookup bid = some b2 ∧
        (∀ k, k ≠ bid →
          (s.update_booking bid d t dm st no).2.bookings.lookup k =
            s.bookings.lookup k) ∧
        b2.date = d.getD old.date ∧ b2.time = t.getD old.time ∧
        b2.duration_minutes = dm.getD old.duration_minutes ∧
        b2.status = st.getD old.status ∧ b2.notes = no.getD old.notes ∧
        b2.booking_id = old.booking_id ∧ b2.service_type = old.service_type ∧
        b2.customer_name = old.customer_name ∧
        b2.customer_email = old.customer_email ∧
        b2.created_at = old.created_at ∧
        b2.updated_at = s.clock ∧
        (old.updated_at < s.clock → old.updated_at < b2.updated_at)) := by
  constructor
  · intro hnone
    simp [ToolExecutor.update_booking, hnone]
  · intro old hsome
    refine ⟨"Booking updated successfully. Updated fields: " ++ joinSep ", "
        ((if d.isSome then ["date"] else []) ++
          (if t.isSome then ["time"] else []) ++
          (if dm.isSome then ["duration_minutes"] else []) ++
          (if st.isSome then ["status"] else []) ++
          (if no.isSome then ["notes"] else [])),
      { old with
        date := d.getD old.date
        time := t.getD old.time
        duration_minutes := dm.getD old.duration_minutes
        status := st.getD old.status
        notes := no.getD old.notes
        updated_at := s.clock },
      ?_, ?_, ?_, rfl, rfl, rfl, rfl, rfl, rfl, rfl, rfl, rfl, rfl, rfl,
      fun hlt => hlt⟩
    · cases d <;> cases t <;> cases dm <;> cases st <;> cases no <;>
        simp [ToolExecutor.update_booking, hsome]
    · cases d <;> cases t <;> cases dm <;> cases st <;> cases no <;>
        simp [ToolExecutor.update_booking, hsome, lookup_storeSet_self]
    · intro k hk
      cases d <;> cases t <;> cases dm <;> cases st <;> cases no <;>
        simp [ToolExecutor.update_booking, hsome, lookup_storeSet_ne _ _ _ _ hk]

/-- Witness for C8: update the time of a booking created from the fresh store;
the unknown-id branch and the known-id branch are both exercised. -/
theorem update_booking_frame_witness :
    ((initState.create_booking "massage" "2024-06-01" "09:00" "Ann" "ann@x.com" 60 "").2.update_booking
        "no-such-id" none (some "10:00") none none none).2 =
      (initState.create_booking "massage" "2024-06-01" "09:00" "Ann" "ann@x.com" 60 "").2 ∧
    ∃ m b2,
      ((initState.create_booking "massage" "2024-06-01" "09:00" "Ann" "ann@x.com" 60 "").2.update_booking
          "uuid-0" none (some "10:00") none none none).1 = .updateOk "uuid-0" m b2 ∧
      b2.time = "10:00" ∧ b2.date = "2024-06-01" ∧ b2.updated_at = 2 := by
  constructor
  · exact (update_booking_frame _ "no-such-id" none (some "10:00") none none none).1
      (by decide) |>.2
  · obtain ⟨m, b2, h1, _, _, hd, ht, _, _, _, _, _, _, _, _, hu, _⟩ :=
      (update_booking_frame
        (initState.create_booking "massage" "2024-06-01" "09:00" "Ann" "ann@x.com" 60 "").2
        "uuid-0" none (some "10:00") none none none).2
        { booking_id := "uuid-0", service_type := "massage", date := "2024-06-01",
          time := "09:00", duration_minutes := 60, customer_name := "Ann",
          customer_email := "ann@x.com", notes := "", status := "confirmed",
          created_at := 0, updated_at := 1 } (by decide)
    exact ⟨m, b2, h1, ht, hd, hu⟩

/-! ## C3 — get_booking as a filtered read, and the demo-data exception -/

/-- Counterexample to C3 as stated: on the empty store with no filters,
`get_booking` does not return zero bookings and does not leave the store
unchanged — it creates a sample demo booking and returns it. -/
theorem get_booking_demo_counterexample :
    (initState.get_booking none none none "all").2.bookings.length = 1 ∧
    (initState.get_booking none none none "all").1 ≠ ToolResult.getMany 0 [] ∧
    (initState.get_booking none none none "all").2 ≠ initState := by
  decide

/-- C3 (amended): whenever the store is non-empty, `get_booking` without a
bookingId returns exactly the stored bookings matching every supplied filter
(exact match on customer_email and date when truthy, and on status unless it
is "all") and leaves the store unchanged. On the empty store it instead
creates a sample demo booking and returns it. -/
theorem get_booking_filters (s : ToolExecutor) (ce d : Option String)
    (stt : String) (hs : s.bookings ≠ []) :
    (s.get_booking none ce d stt).2 = s ∧
    ∃ bs, (s.get_booking none ce d stt).1 = ToolResult.getMany bs.length bs ∧
      ∀ b, b ∈ bs ↔ b ∈ s.bookings.map Prod.snd ∧ bookingMatches ce d stt b = true := by
  have h1 : s.bookings.isEmpty = false := by
    cases hb : s.bookings with
    | nil => exact absurd hb hs
    | cons x xs => rfl
  refine ⟨?_, (s.bookings.map Prod.snd).filter (bookingMatches ce d stt), ?_, ?_⟩
  · simp [ToolExecutor.get_booking, truthy, h1]
  · simp [ToolExecutor.get_booking, truthy, h1]
  · intro b
    simp [List.mem_filter]

/-- Witness for C3 (amended) on a one-booking store with no filters. -/
theorem get_booking_filters_witness :
    ((initState.create_booking "massage" "2024-06-01" "09:00" "Ann" "ann@x.com" 60 "").2.get_booking
      none none none "all").2 =
      (initState.create_booking "massage" "2024-06-01" "09:00" "Ann" "ann@x.com" 60 "").2 :=
  (get_booking_filters _ none none "all" (by decide)).1

/-! ## C7 — retrieval truncation -/

/-- Accumulated context parts are always the formatted forms of a prefix of
the retrieved documents (the loop breaks, never skips). -/
theorem accumulate_isTake (L : Nat) (docs : List RDoc) : ∀ total : Nat,
    ∃ k, accumulate L total docs = (docs.take k).map fmtDoc := by
  induction docs with
  | nil => intro total; exact ⟨0, rfl⟩
  | cons dd rest ih =>
    intro total
    by_cases hb : total + (fmtDoc dd).length > L
    · exact ⟨0, by simp [accumulate, hb]⟩
    · obtain ⟨k, hk⟩ := ih (total + (fmtDoc dd).length)
      exact ⟨k + 1, by simp [accumulate, hb, hk]⟩

/-- Starting from a running total, the accumulated parts keep the final total
within the budget (or nothing at all is accumulated). -/
theorem accumulate_within (L : Nat) (docs : List RDoc) : ∀ total : Nat,
    accumulate L total docs = [] ∨
      total + sumLen (accumulate L total docs) ≤ L := by
  induction docs with
  | nil => intro total; exact .inl rfl
  | cons dd rest ih =>
    intro total
    by_cases hb : total + (fmtDoc dd).length > L
    · exact .inl (by simp [accumulate, hb])
    · right
      rcases ih (total + (fmtDoc dd).length) with h | h
      · simp [accumulate, hb, h, sumLen]
        omega
      · simp only [accumulate, hb, if_neg (by omega : ¬ total + (fmtDoc dd).length > L)]
        simp [sumLen] at h ⊢
        omega

/-- Length bound for Python's `sep.join`. -/
theorem joinSep_length (sep : String) : ∀ l : List String,
    (joinSep sep l).length ≤ sumLen l + sep.length * l.length := by
  intro l
  induction l with
  | nil => simp [joinSep, sumLen]
  | cons x xs ih =>
    cases xs with
    | nil => simp [joinSep, sumLen]
    | cons y ys =>
      have h1 : (joinSep sep (x :: y :: ys)).length =
          x.length + sep.length + (joinSep sep (y :: ys)).length := by
        show (x ++ sep ++ joinSep sep (y :: ys)).length = _
        rw [String.length_append, String.length_append]
      have h2 : sumLen (x :: y :: ys) + sep.length * (x :: y :: ys).length =
          x.length + sep.length +
            (sumLen (y :: ys) + sep.length * (y :: ys).length) := by
        simp only [sumLen, List.map_cons, List.sum_cons, List.length_cons]
        ring
      rw [h1, h2]
      omega

/-- Counterexample to C7 as stated: for a single retrieved chunk of length 1
under the default budget 2000, the returned context has length 36, exceeding
the sum (1) of the included whole chunks' lengths — the code prepends a fixed
35-character header to the accumulated chunks. -/
theorem context_length_counterexample :
    (get_context_for_prompt true (.ok [0])
      (.ok [{ id := "d1", score := 0, text := "a", title := "", source := "" }]) 2000).length = 36 ∧
    sumLen (accumulate 2000 0
      [{ id := "d1", score := 0, text := "a", title := "", source := "" }]) = 1 := by
  constructor <;> decide

/-- C7 (amended): `get_context_for_prompt` includes only whole formatted
chunks, taken greedily as a prefix of the retrieved order, the lengths of the
included chunks never sum to more than `maxLength`, and the returned context
is at most a fixed 35-character header plus the included chunks joined by
two-character separators — so its length is bounded by 35 plus the chunk-sum
plus 2 per included chunk, rather than by the bare chunk-sum. -/
theorem get_context_truncation (docs : List RDoc) (L : Nat) :
    ∃ k, accumulate L 0 docs = (docs.take k).map fmtDoc ∧
      sumLen (accumulate L 0 docs) ≤ L ∧
      (get_context_for_prompt true (.ok [0]) (.ok docs) L).length ≤
        35 + sumLen (accumulate L 0 docs) + 2 * (accumulate L 0 docs).length := by
  obtain ⟨k, hk⟩ := accumulate_isTake L docs 0
  refine ⟨k, hk, ?_, ?_⟩
  · rcases accumulate_within L docs 0 with h | h
    · simp [h, sumLen]
    · omega
  · have hg : get_context_for_prompt true (.ok [0]) (.ok docs) L =
        if docs.isEmpty then "" else
          if !(accumulate L 0 docs).isEmpty then
            "### Relevant Business Information:\n" ++
              joinSep "\n\n" (accumulate L 0 docs)
          else "" := rfl
    rw [hg]
    cases hd : docs.isEmpty
    · rw [if_neg (by simp [hd])]
      cases hacc : accumulate L 0 docs with
      | nil => simp [sumLen]
      | cons a as =>
        rw [if_pos (by simp)]
        rw [String.length_append]
        have hj := joinSep_length "\n\n" (a :: as)
        have hhead : ("### Relevant Business Information:\n" : String).length = 35 := by
          decide
        have hsep : ("\n\n" : String).length = 2 := by decide
        rw [hsep] at hj
        rw [hhead]
        omega
    · rw [if_pos (by simp [hd])]
      simp

/-! ## C9 — retrieval failures degrade to the empty string -/

/-- The RAG context is empty whenever the Pinecone singleton is absent. -/
theorem ragContextOf_none (env : Env) (h : Heap) (messages : List Nat)
    (use_rag : Bool) (hp : env.pinecone = none) :
    ragContextOf env h messages use_rag = "" := by
  unfold ragContextOf
  split
  · rw [hp]
  · rfl

/-- A vanishing RAG context leaves the heap untouched. -/
theorem augmentHeap_empty (h : Heap) (messages : List Nat) :
    augmentHeap h messages "" = h := by
  unfold augmentHeap
  simp

/-- The first message list sent by the orchestrator, in both branches. -/
theorem gcwt_sent_head (env : Env) (h : Heap) (messages : List Nat)
    (use_rag : Bool) (s0 : ToolExecutor) :
    (get_completion_with_tools env h messages use_rag s0).sent.head? =
      some (formatForModel
        (augmentHeap h messages (ragContextOf env h messages use_rag))
        messages true, true) := by
  cases hmt : env.llm1.tool_calls.isEmpty <;>
    simp [get_completion_with_tools, hmt]

/-- A gateway that always yields an empty context produces an empty RAG
context in the orchestrator. -/
theorem ragContextOf_empty_of (env : Env) (g : String → String) (h : Heap)
    (messages : List Nat) (use_rag : Bool) (hp : env.pinecone = some g)
    (hg : ∀ qy, g qy = "") :
    ragContextOf env h messages use_rag = "" := by
  unfold ragContextOf
  split
  · rw [hp]
    cases hfl : (messages.filter
        (fun r => (heapGet h r).role == "user")).getLast? with
    | none => simp [hfl]
    | some r => simp [hfl, hg]
  · rfl

/-- C9: whenever the vector index is unavailable, the query embedding raises,
the vector query raises, or the query returns zero candidates, the gateway
returns the empty string as a normal outcome; and whenever the Pinecone
service singleton is absent — or present but yielding an empty context — the
orchestration proceeds with the unaugmented composition and an unchanged
message heap. No error reaches the caller from the retrieval path (every
embedded outcome is a plain value). -/
theorem retrieval_degrades (i : Bool) (emb : EmbedOutcome) (q : QueryOutcome)
    (L : Nat) (env : Env) (h : Heap) (messages : List Nat) (s0 : ToolExecutor) :
    ((i = false ∨ (∃ m, emb = .failure m) ∨ (∃ m, q = .failure m) ∨ q = .ok []) →
      get_context_for_prompt i emb q L = "") ∧
    (env.pinecone = none →
      (get_completion_with_tools env h messages true s0).heap = h ∧
      (get_completion_with_tools env h messages true s0).sent.head? =
        some (formatForModel h messages true, true)) ∧
    (∀ g, env.pinecone = some g → (∀ qy, g qy = "") →
      (get_completion_with_tools env h messages true s0).heap = h ∧
      (get_completion_with_tools env h messages true s0).sent.head? =
        some (formatForModel h messages true, true)) := by
  refine ⟨?_, ?_, ?_⟩
  · intro hcase
    rcases hcase with hi | ⟨m, hm⟩ | ⟨m, hm⟩ | hq
    · subst hi
      simp [get_context_for_prompt, search_knowledge_base]
    · subst hm
      cases i <;> simp [get_context_for_prompt, search_knowledge_base, generate_embedding]
    · subst hm
      cases i <;> cases emb <;>
        simp [get_context_for_prompt, search_knowledge_base, generate_embedding]
    · subst hq
      cases i <;> cases emb <;>
        simp [get_context_for_prompt, search_knowledge_base, generate_embedding]
  · intro hp
    have hr := ragContextOf_none env h messages true hp
    have hh : (get_completion_with_tools env h messages true s0).heap = h := by
      cases hmt : env.llm1.tool_calls.isEmpty <;>
        simp [get_completion_with_tools, hmt, hr, augmentHeap_empty]
    refine ⟨hh, ?_⟩
    rw [gcwt_sent_head, hr, augmentHeap_empty]
  · intro g hp hg
    have hr := ragContextOf_empty_of env g h messages true hp hg
    have hh : (get_completion_with_tools env h messages true s0).heap = h := by
      cases hmt : env.llm1.tool_calls.isEmpty <;>
        simp [get_completion_with_tools, hmt, hr, augmentHeap_empty]
    refine ⟨hh, ?_⟩
    rw [gcwt_sent_head, hr, augmentHeap_empty]

/-- Witness for C9 at concrete failing-backend inputs and an absent
service singleton. -/
theorem retrieval_degrades_witness :
    get_context_for_prompt false (.ok [0]) (.ok []) 2000 = "" ∧
    (get_completion_with_tools
      { llm1 := { content := some "hello", tool_calls := [] }
        llm2 := { content := none, tool_calls := [] }
        pinecone := none }
      [(0, { role := "user", content := "hi" })] [0] true initState).heap =
      [(0, { role := "user", content := "hi" })] := by
  constructor
  · exact (retrieval_degrades false (.ok [0]) (.ok []) 2000
      { llm1 := { content := none, tool_calls := [] }
        llm2 := { content := none, tool_calls := [] }
        pinecone := none } [] [] initState).1 (.inl rfl)
  · exact ((retrieval_degrades false (.ok [0]) (.ok []) 2000
      { llm1 := { content := some "hello", tool_calls := [] }
        llm2 := { content := none, tool_calls := [] }
        pinecone := none }
      [(0, { role := "user", content := "hi" })] [0] initState).2.1 rfl).1

/-! ## C5 — exactly two model round-trips -/

/-- The first tool loop executes precisely the requested calls, in order. -/
theorem runToolLoop_exec (tcs : List ToolCall) : ∀ s : ToolExecutor,
    (runToolLoop s tcs).exec = tcs.map (fun tc => (tc.name, tc.arguments)) := by
  induction tcs with
  | nil => intro s; rfl
  | cons tc rest ih => intro s; simp [runToolLoop, ih]

/-- The second tool loop also executes precisely the requested calls. -/
theorem runToolMsgLoop_exec (tcs : List ToolCall) : ∀ s : ToolExecutor,
    (runToolMsgLoop s tcs).exec = tcs.map (fun tc => (tc.name, tc.arguments)) := by
  induction tcs with
  | nil => intro s; rfl
  | cons tc rest ih => intro s; simp [runToolMsgLoop, ih]

/-- C5: every orchestration pass issues at most two model calls — one with
the tool catalog attached and, only when round 1 requested tools, a second
one without the catalog whose content is returned as the final answer; every
tool execution stems from a round-1 request, so tool calls signaled by the
round-2 response are discarded and no third call or recursive round exists. -/
theorem two_round_cap (env : Env) (h : Heap) (messages : List Nat)
    (use_rag : Bool) (s0 : ToolExecutor) :
    ((get_completion_with_tools env h messages use_rag s0).sent.map Prod.snd = [true] ∨
      (get_completion_with_tools env h messages use_rag s0).sent.map Prod.snd = [true, false]) ∧
    (get_completion_with_tools env h messages use_rag s0).sent.length ≤ 2 ∧
    (env.llm1.tool_calls.isEmpty = false →
      (get_completion_with_tools env h messages use_rag s0).finalAnswer = env.llm2.content) ∧
    (∀ e ∈ (get_completion_with_tools env h messages use_rag s0).executed,
      e ∈ env.llm1.tool_calls.map (fun tc => (tc.name, tc.arguments))) := by
  cases hmt : env.llm1.tool_calls.isEmpty
  case false =>
    refine ⟨.inr ?_, ?_, fun _ => ?_, ?_⟩ <;>
      simp [get_completion_with_tools, hmt, runToolLoop_exec, runToolMsgLoop_exec]
  case true =>
    refine ⟨.inl ?_, ?_, fun hc => by simp [hmt] at hc, ?_⟩ <;>
      simp [get_completion_with_tools, hmt]

/-- Round-1 response requesting one tool call while the round-2 response
also signals a tool call (which must be discarded). -/
def envW5 : Env :=
  { llm1 :=
      { content := none
        tool_calls := [{ id := "c1", name := "get_booking", arguments := .getArgs none none none none }] }
    llm2 :=
      { content := some "final answer"
        tool_calls := [{ id := "c2", name := "create_booking", arguments := .badArgs "round-2 request" }] }
    pinecone := none }

/-- Witness for C5: with a tool call in both rounds, the final answer is the
round-2 content and the round-2 tool request is never executed. -/
theorem two_round_cap_witness :
    (get_completion_with_tools envW5 [] [] false initState).finalAnswer =
      envW5.llm2.content :=
  (two_round_cap envW5 [] [] false initState).2.2.1 (by decide)

/-! ## C1 — each requested tool call is executed twice, not once -/

/-- Round-1 response requesting a single `create_booking` tool call. -/
def envX1 : Env :=
  { llm1 :=
      { content := none
        tool_calls := [{ id := "call_a", name := "create_booking", arguments := .createArgs "massage" "2024-06-01" "09:00" "Ann" "ann@x.com" none none }] }
    llm2 := { content := some "done", tool_calls := [] }
    pinecone := none }

/-- The history for the C1 run: a single user message. -/
def heapX1 : Heap := [(0, { role := "user", content := "book me a massage" })]

/-- C1 evaluated at the failing input: the model requests `create_booking`
exactly once, yet the orchestrator invokes `execute_tool` twice (once for the
formatted rendering and again when serializing the tool-result message), so
the booking store ends up with two bookings instead of one. -/
theorem tool_double_execution_bug :
    envX1.llm1.tool_calls.length = 1 ∧
    (get_completion_with_tools envX1 heapX1 [0] false initState).executed.length = 2 ∧
    (get_completion_with_tools envX1 heapX1 [0] false initState).toolState.bookings.length = 2 := by
  decide

/-! ## C2 — the RAG merge mutates the caller's stored message -/

/-- Round-1 response requesting one tool call, with retrieval available. -/
def envX2 : Env :=
  { llm1 :=
      { content := some "Booking now."
        tool_calls := [{ id := "call_1", name := "create_booking", arguments := .createArgs "massage" "2024-06-01" "09:00" "Ann" "ann@x.com" none none }] }
    llm2 := { content := some "All set.", tool_calls := [] }
    pinecone := some (fun _ => "CTX") }

/-- The caller's stored history for the C2 run: one user message "hi". -/
def heapX2 : Heap := [(0, { role := "user", content := "hi" })]

/-- C2 evaluated at the failing input: after the pass, the caller's stored
`Message` object has been mutated in place to the augmented content (the
shallow `copy()` copies references, not objects), and the history portion of
the post-tool-call message list therefore carries the augmentation as well —
it is re-applied to model call #2 rather than kept as a derived copy. -/
theorem rag_mutation_bug :
    heapGet (get_completion_with_tools envX2 heapX2 [0] true initState).heap 0 =
      { role := "user", content := "CTX\n\nUser Question: hi" } ∧
    FMessage.chat "user" "CTX\n\nUser Question: hi" ∈
      ((get_completion_with_tools envX2 heapX2 [0] true initState).sent.getD 1 ([], true)).1 ∧
    heapGet heapX2 0 = { role := "user", content := "hi" } := by
  decide

/-! ## C4 — leading system messages -/

/-- Number of consecutive system-role messages at the head of a list. -/
def leadingSystem : List FMessage → Nat
  | [] => 0
  | m :: rest => if m.role == "system" then leadingSystem rest + 1 else 0

/-- Whether the stored history itself begins with a system-role message. -/
def startsWithSystem (h : Heap) (messages : List Nat) : Bool :=
  match messages with
  | [] => false
  | r :: _ => (heapGet h r).role == "system"

/-- Reassigning the content of one message object preserves every role. -/
theorem heapGet_heapSet_role (h : Heap) (r0 r : Nat) (c : String) :
    (heapGet (heapSet h r0 { heapGet h r0 with content := c }) r).role =
      (heapGet h r).role := by
  by_cases hrr : r = r0
  · subst hrr
    unfold heapGet
    rw [lookup_heapSet_self]
    cases hlk : h.lookup r <;> simp [hlk]
  · unfold heapGet
    rw [lookup_heapSet_ne _ _ _ _ hrr]

/-- The RAG merge either leaves the heap alone or reassigns the content of
the final message's object. -/
theorem augmentHeap_eq_of (h : Heap) (messages : List Nat) (ctx : String) :
    augmentHeap h messages ctx = h ∨
    ∃ r0, messages.getLast? = some r0 ∧
      augmentHeap h messages ctx =
        heapSet h r0 { heapGet h r0 with
          content := ctx ++ "\n\nUser Question: " ++ (heapGet h r0).content } := by
  unfold augmentHeap
  split
  · split
    · split
      · exact .inr ⟨_, by assumption, rfl⟩
      · exact .inl rfl
    · exact .inl rfl
  · exact .inl rfl

/-- The RAG merge reassigns only the content field, so every reference keeps
its role. -/
theorem heapGet_augment_role (h : Heap) (messages : List Nat) (ctx : String)
    (r : Nat) :
    (heapGet (augmentHeap h messages ctx) r).role = (heapGet h r).role := by
  rcases augmentHeap_eq_of h messages ctx with he | ⟨r0, _, he⟩
  · rw [he]
  · rw [he]
    exact heapGet_heapSet_role h r0 r _

/-- The augmented heap starts with a system message iff the original does. -/
theorem startsWithSystem_augment (h : Heap) (messages : List Nat) (ctx : String) :
    startsWithSystem (augmentHeap h messages ctx) messages =
      startsWithSystem h messages := by
  cases messages with
  | nil => rfl
  | cons r rest => simp [startsWithSystem, heapGet_augment_role]

/-- The initial message list has exactly one leading system message whenever
the history does not itself start with one. -/
theorem leadingSystem_formatForModel (h : Heap) (messages : List Nat)
    (hs : startsWithSystem h messages = false) :
    leadingSystem (formatForModel h messages true) = 1 := by
  cases messages with
  | nil => rfl
  | cons r rest =>
    have hr : ((heapGet h r).role == "system") = false := by
      simpa [startsWithSystem] using hs
    have hr2 : ¬ (heapGet h r).role = "system" := by simpa using hr
    simp [formatForModel, leadingSystem, FMessage.role, hr, hr2]

/-- The post-tool-call message list has exactly one leading system message
whenever the history does not itself start with one. -/
theorem leadingSystem_buildSecond (h : Heap) (messages : List Nat)
    (content : String) (tcs : List ToolCall) (tool_msgs : List FMessage)
    (hs : startsWithSystem h messages = false) :
    leadingSystem (buildSecondMessages h messages content tcs tool_msgs) = 1 := by
  cases messages with
  | nil => simp [buildSecondMessages, leadingSystem, FMessage.role]
  | cons r rest =>
    have hr : ((heapGet h r).role == "system") = false := by
      simpa [startsWithSystem] using hs
    simp [buildSecondMessages, leadingSystem, FMessage.role, hr]

/-- C4 (amended): whenever the stored history does not begin with a
system-role message, every message list the orchestration pass sends to the
model — the initial one and, when tools were requested, the post-tool-call
one — begins with exactly one system message. (When the history does begin
with a system message, call #2 unconditionally prepends another system prompt
in front of it, so the claimed invariant fails there.) -/
theorem system_message_invariant (env : Env) (h : Heap) (messages : List Nat)
    (use_rag : Bool) (s0 : ToolExecutor)
    (hs : startsWithSystem h messages = false) :
    ∀ pr ∈ (get_completion_with_tools env h messages use_rag s0).sent,
      leadingSystem pr.1 = 1 := by
  have hs1 : startsWithSystem
      (augmentHeap h messages (ragContextOf env h messages use_rag)) messages = false := by
    rw [startsWithSystem_augment]
    exact hs
  intro pr hpr
  cases hmt : env.llm1.tool_calls.isEmpty
  case false =>
    simp only [get_completion_with_tools, hmt, Bool.false_eq_true, if_false,
      List.mem_cons, List.mem_singleton, List.not_mem_nil, or_false] at hpr
    rcases hpr with h1 | h1 <;> subst h1
    · exact leadingSystem_formatForModel _ _ hs1
    · exact leadingSystem_buildSecond _ _ _ _ _ hs1
  case true =>
    simp only [get_completion_with_tools, hmt, if_true, List.mem_singleton] at hpr
    subst hpr
    exact leadingSystem_formatForModel _ _ hs1

/-- A run whose history starts with a user message, for the C4 witness. -/
def envW4 : Env :=
  { llm1 := { content := some "hi", tool_calls := [] }
    llm2 := { content := none, tool_calls := [] }
    pinecone := none }

/-- The history for the C4 witness run. -/
def heapW4 : Heap := [(0, { role := "user", content := "hello" })]

/-- Witness for C4 (amended) at a concrete non-system-starting history. -/
theorem system_message_invariant_witness :
    leadingSystem (formatForModel heapW4 [0] true) = 1 := by
  have hm : (formatForModel heapW4 [0] true, true) ∈
      (get_completion_with_tools envW4 heapW4 [0] false initState).sent := by
    decide
  exact system_message_invariant envW4 heapW4 [0] false initState (by decide) _ hm

/-- Tool-requesting model response for the C4 counterexample run. -/
def envX4 : Env :=
  { llm1 :=
      { content := none
        tool_calls := [{ id := "call_0", name := "get_booking", arguments := .getArgs none none none none }] }
    llm2 := { content := some "ok", tool_calls := [] }
    pinecone := none }

/-- A stored history that already begins with a system message. -/
def heapX4 : Heap := [(0, { role := "system", content := "be brief" })]

/-- Counterexample to C4 as stated: when the history already starts with a
system message and the model requests a tool, the post-tool-call message list
begins with two system messages — the unconditionally prepended system prompt
followed by the history's own system message. -/
theorem system_message_counterexample :
    (get_completion_with_tools envX4 heapX4 [0] false initState).sent.length = 2 ∧
    leadingSystem
      ((get_completion_with_tools envX4 heapX4 [0] false initState).sent.getD 1
        ([], true)).1 = 2 := by
  decide

/-! ## C6 — where the augmentation is merged -/

/-- Mapping preserves the last element. -/
theorem getLast_map {α β : Type} (f : α → β) : ∀ (l : List α) (a : α),
    l.getLast? = some a → (l.map f).getLast? = some (f a) := by
  intro l
  induction l with
  | nil => intro a ha; cases ha
  | cons x xs ih =>
    intro a ha
    cases xs with
    | nil =>
      have hx : ([x] : List α).getLast? = some x := rfl
      rw [hx] at ha
      cases ha
      rfl
    | cons y ys =>
      rw [List.getLast?_cons_cons] at ha
      have hrec := ih a ha
      simp only [List.map_cons] at hrec ⊢
      rw [List.getLast?_cons_cons]
      exact hrec

/-- Filtering keeps a final element that satisfies the predicate last. -/
theorem getLast_filter_keep (p : Nat → Bool) : ∀ (l : List Nat) (r : Nat),
    l.getLast? = some r → p r = true → (l.filter p).getLast? = some r := by
  intro l
  induction l with
  | nil => intro r hr _; cases hr
  | cons a t ih =>
    intro r hr hp
    cases t with
    | nil =>
      have hx : ([a] : List Nat).getLast? = some a := rfl
      rw [hx] at hr
      cases hr
      simp [List.filter_cons, hp]
    | cons b t2 =>
      rw [List.getLast?_cons_cons] at hr
      have hrec := ih r hr hp
      by_cases hpa : p a = true
      · have hfc : (a :: b :: t2).filter p = a :: (b :: t2).filter p := by
          simp [List.filter_cons, hpa]
        rw [hfc]
        cases hfl : (b :: t2).filter p with
        | nil => rw [hfl] at hrec; cases hrec
        | cons c cs =>
          rw [hfl] at hrec
          rw [List.getLast?_cons_cons]
          exact hrec
      · have hfc : (a :: b :: t2).filter p = (b :: t2).filter p := by
          simp [List.filter_cons, hpa]
        rw [hfc]
        exact hrec

/-- The last outbound message of the initial composition renders the last
history message. -/
theorem formatForModel_getLast (h : Heap) (messages : List Nat) (r : Nat)
    (hl : messages.getLast? = some r) :
    (formatForModel h messages true).getLast? =
      some (.chat (heapGet h r).role (heapGet h r).content) := by
  have hmap := getLast_map
    (fun r2 => FMessage.chat (heapGet h r2).role (heapGet h r2).content)
    messages r hl
  have hne : messages.map
      (fun r2 => FMessage.chat (heapGet h r2).role (heapGet h r2).content) ≠ [] := by
    intro h0
    rw [h0] at hmap
    cases hmap
  simp only [formatForModel]
  rw [List.getLast?_append_of_ne_nil _ hne]
  exact hmap

/-- Dereferencing the freshly assigned object (the hypothesis that the old
object is user-role guarantees the reference is live). -/
theorem heapGet_heapSet_of_role (h : Heap) (r : Nat) (m : Message)
    (hu : (heapGet h r).role = "user") :
    heapGet (heapSet h r m) r = m := by
  unfold heapGet at hu ⊢
  rw [lookup_heapSet_self]
  cases hlk : h.lookup r with
  | none =>
    rw [hlk] at hu
    simp at hu
  | some v => rfl

/-- When the final message is user-role, the retrieval query is exactly its
content. -/
theorem ragContextOf_last_user (env : Env) (g : String → String) (h : Heap)
    (messages : List Nat) (r : Nat) (hp : env.pinecone = some g)
    (hl : messages.getLast? = some r) (hu : (heapGet h r).role = "user") :
    ragContextOf env h messages true = g (heapGet h r).content := by
  have hne : messages ≠ [] := by
    intro h0
    rw [h0] at hl
    cases hl
  have hie : messages.isEmpty = false := by
    cases messages with
    | nil => exact absurd rfl hne
    | cons a t => rfl
  have hfl : (messages.filter
      (fun r2 => (heapGet h r2).role == "user")).getLast? = some r :=
    getLast_filter_keep _ messages r hl (by simp [hu])
  simp [ragContextOf, hie, hp, hfl]

/-- When the final message is user-role and the context is non-empty, the
merge assigns the augmented content to that message's object. -/
theorem augmentHeap_last_user (h : Heap) (messages : List Nat) (r : Nat)
    (ctx : String) (hl : messages.getLast? = some r)
    (hu : (heapGet h r).role = "user") (hc : ctx ≠ "") :
    augmentHeap h messages ctx =
      heapSet h r { heapGet h r with
        content := ctx ++ "\n\nUser Question: " ++ (heapGet h r).content } := by
  have hcb : (ctx != "") = true := by simpa using hc
  have hub : ((heapGet h r).role == "user") = true := by simp [hu]
  simp [augmentHeap, hcb, hl, hub]

/-- C6 (amended): with retrieval available, the augmentation is merged only
when the final message of the history is user-role: the initial composition
then ends in a user message whose content is exactly the augmentation text,
"\n\nUser Question: ", and the original content; and when the history has no
user-role message at all the retrieval query is never formed, so the initial
composition equals the unaugmented one. (For a last user message that is not
the final message — e.g. one followed by an assistant reply — the merge is
skipped even though the claim demands it be applied.) -/
theorem augmentation_merge (env : Env) (g : String → String) (h : Heap)
    (messages : List Nat) (s0 : ToolExecutor) (hp : env.pinecone = some g) :
    (∀ r, messages.getLast? = some r → (heapGet h r).role = "user" →
      g (heapGet h r).content ≠ "" →
      ∃ l, (get_completion_with_tools env h messages true s0).sent.head? =
          some (l, true) ∧
        l.getLast? = some (.chat "user"
          (g (heapGet h r).content ++ "\n\nUser Question: " ++
            (heapGet h r).content))) ∧
    (messages.filter (fun r => (heapGet h r).role == "user") = [] →
      (get_completion_with_tools env h messages true s0).sent.head? =
        some (formatForModel h messages true, true)) := by
  constructor
  · intro r hl hu hg
    have hctx := ragContextOf_last_user env g h messages r hp hl hu
    refine ⟨_, gcwt_sent_head env h messages true s0, ?_⟩
    rw [hctx]
    rw [augmentHeap_last_user h messages r _ hl hu hg]
    rw [formatForModel_getLast _ _ r hl]
    rw [heapGet_heapSet_of_role h r _ hu]
    simp [hu]
  · intro hfil
    have hctx0 : ragContextOf env h messages true = "" := by
      cases hie : messages.isEmpty
      · simp [ragContextOf, hie, hp, hfil]
      · simp [ragContextOf, hie]
    rw [gcwt_sent_head, hctx0, augmentHeap_empty]

/-- Retrieval-enabled environment for the C6 witness run. -/
def envW6 : Env :=
  { llm1 := { content := some "ans", tool_calls := [] }
    llm2 := { content := none, tool_calls := [] }
    pinecone := some (fun q => "K: " ++ q) }

/-- A history ending in a user message, for the C6 witness run. -/
def heapW6 : Heap := [(0, { role := "user", content := "q" })]

/-- Witness for C6 (amended) at a history ending in a user message. -/
theorem augmentation_merge_witness :
    ∃ l, (get_completion_with_tools envW6 heapW6 [0] true initState).sent.head? =
        some (l, true) ∧
      l.getLast? = some (.chat "user" "K: q\n\nUser Question: q") := by
  have hres := (augmentation_merge envW6 (fun q => "K: " ++ q) heapW6 [0]
    initState rfl).1 0 rfl (by decide) (by decide)
  exact hres

/-- Retrieval-enabled environment for the C6 counterexample run. -/
def envX6 : Env :=
  { llm1 := { content := some "reply", tool_calls := [] }
    llm2 := { content := none, tool_calls := [] }
    pinecone := some (fun _ => "ctx") }

/-- A history whose last user message is followed by an assistant reply. -/
def heapX6 : Heap :=
  [(0, { role := "user", content := "q" }), (1, { role := "assistant", content := "a" })]

/-- Counterexample to C6 as stated: with a non-empty augmentation and a
history whose last user message sits before a trailing assistant message, the
composed list is the unaugmented one — no message carries the merged content
the claim requires. -/
theorem augmentation_merge_counterexample :
    ((get_completion_with_tools envX6 heapX6 [0, 1] true initState).sent.getD 0
        ([], true)).1 =
      [FMessage.chat "system" SYSTEM_PROMPT, FMessage.chat "user" "q",
        FMessage.chat "assistant" "a"] ∧
    FMessage.chat "user" "ctx\n\nUser Question: q" ∉
      ((get_completion_with_tools envX6 heapX6 [0, 1] true initState).sent.getD 0
        ([], true)).1 := by
  decide

end Gym
